import Mathlib

/-!
# Verification of the swarmdash analytics core

A shallow embedding, in Lean 4, of the metrics/aggregation layer of the
swarmdash sports-analytics dashboard, together with theorems checking the
repository's specification against the code.

Conventions of the embedding:
* pandas/numpy floating-point values are modelled as rationals (`ℚ`); a
  possibly-NaN cell is `Option ℚ` (`none` = NaN/missing); arithmetic whose
  float semantics can produce NaN is modelled with the `PVal` type below,
  where `PVal.nan` propagates through `+` and `*` exactly as IEEE NaN does.
* a pandas `Series` of floats is a `List ℚ` (or `List (Option ℚ)` when NaN
  entries matter); a `DataFrame` is an association list from column names
  to columns.
* Python functions that cannot raise become total Lean functions; totality
  in Lean is the embedding of "never raises past its boundary".
-/

/-- A pandas/numpy float value: either an actual (rational) number or NaN.
Used where the source's arithmetic can produce NaN. -/
inductive PVal where
  | num (q : ℚ)
  | nan
  deriving DecidableEq, Repr

namespace PVal

/-- IEEE addition restricted to the values the embedding needs:
NaN propagates through addition. -/
def add : PVal → PVal → PVal
  | num a, num b => num (a + b)
  | _, _ => nan

/-- Multiplication by a (non-NaN) scalar; NaN propagates (IEEE: NaN·x = NaN). -/
def smul (w : ℚ) : PVal → PVal
  | num a => num (a * w)
  | nan => nan

end PVal

/-! ## Percentile values (`calculate_percentile_values`)

`src/utils/calculations.py` lines 7–19.  The function copies `selected_df`,
and for each requested metric present in `full_df` with a non-empty set of
non-NaN reference values, replaces the metric column by per-cell percentiles:
`(all_values < val).sum() / len(all_values) * 100` for a non-NaN cell, `0`
for a NaN cell.  A frame is an association list column-name ↦ column of
`Option ℚ` cells. -/

/-- Association-list lookup by column name (`metric in df.columns` followed
by `df[metric]`). -/
def alookup {β : Type} : List (String × β) → String → Option β
  | [], _ => none
  | (k, v) :: t, m => if m = k then some v else alookup t m

/-- A dataframe with possibly-NaN cells: association list from column name
to column. -/
abbrev FrameO := List (String × List (Option ℚ))

/-- Embedding of `series.dropna()`: the non-NaN values of a column, in order. -/
def dropna (col : List (Option ℚ)) : List ℚ := col.filterMap id

/-- The per-cell lambda of `calculate_percentile_values`
(`src/utils/calculations.py` lines 15–18):
`(all_values < val).sum() / len(all_values) * 100` when the cell is not NaN
(a strict-less-than count), and `0` when it is NaN.  Only called by the
source with `all_values` non-empty. -/
def percentileCell (all_values : List ℚ) : Option ℚ → Option ℚ
  | some v =>
      some (((all_values.filter (fun x => x < v)).length : ℚ) /
        (all_values.length : ℚ) * 100)
  | none => some 0

/-- Column assignment `df[name] = col`. -/
def setCol (df : FrameO) (name : String) (col : List (Option ℚ)) : FrameO :=
  df.map (fun c => if c.1 = name then (name, col) else c)

/-- Embedding of `calculate_percentile_values` (`src/utils/calculations.py` lines 7–19).
`percentile_df` starts as a copy of `selected_df`; each metric found in
`full_df` whose dropna'd reference values are non-empty has its column
replaced by per-cell percentiles.  (The source indexes `selected_df[metric]`
directly; a metric absent from `selected_df` is modelled as a skip, the
claims only concern metrics present in both frames.) -/
def calculate_percentile_values (selected_df full_df : FrameO)
    (metrics : List String) : FrameO :=
  metrics.foldl
    (fun percentile_df metric =>
      match alookup full_df metric with
      | none => percentile_df
      | some fullCol =>
        let all_values := dropna fullCol
        if 0 < all_values.length then
          match alookup selected_df metric with
          | none => percentile_df
          | some selCol =>
              setCol percentile_df metric (selCol.map (percentileCell all_values))
        else percentile_df)
    selected_df

/-- The per-cell lambda of the duplicate `calculate_percentile_values` in
`src/components/metrics.py` lines 40–51, which has NO emptiness guard on
`all_values`: the division `count / len(all_values)` happens uncondition-
ally.  In numpy float semantics, when `all_values` is empty the count is 0
and `0 / 0` is NaN; otherwise it is a plain division.  `PVal` records that
NaN outcome. -/
def metricsPercentileCell (all_values : List ℚ) : Option ℚ → PVal
  | some v =>
      if all_values.length = 0 then PVal.nan
      else PVal.num (((all_values.filter (fun x => x < v)).length : ℚ) /
        (all_values.length : ℚ) * 100)
  | none => PVal.num 0

/-! ## Growth rate (`calculate_growth_rate`, `src/utils/calculations.py` 21–32) -/

/-- Embedding of `calculate_growth_rate(data)`: 0 for fewer than 2 points; with a zero
first value, 100 if the last value is positive else 0; otherwise the
percentage change `((last - first) / first) * 100`. -/
def calculate_growth_rate (data : List ℚ) : ℚ :=
  if data.length < 2 then 0
  else
    let first_value := data.headD 0
    let last_value := data.getLastD 0
    if first_value = 0 then (if 0 < last_value then 100 else 0)
    else (last_value - first_value) / first_value * 100

/-! ## Consistency score (`calculate_consistency_score`,
`src/utils/calculations.py` 34–40)

pandas `.mean()` and `.std()` (sample standard deviation, `ddof=1`) over a
series of reals; the standard deviation needs a real square root, so this
one operation is embedded over `ℝ`. -/

/-- Arithmetic mean of a list of reals (`series.mean()`). -/
noncomputable def listMeanR (l : List ℝ) : ℝ := l.sum / l.length

/-- pandas `series.std()`: sample standard deviation with `ddof=1`,
`sqrt(Σ (x - mean)² / (n - 1))`. -/
noncomputable def pandas_std (data : List ℝ) : ℝ :=
  Real.sqrt (((data.map (fun x => (x - listMeanR data) ^ 2)).sum) /
    ((data.length : ℝ) - 1))

open Classical in
/-- Embedding of `calculate_consistency_score(data)`: 100 when fewer than 2 samples or
the mean is 0; otherwise `max(0, 100 - cv)` with `cv = std / mean * 100`. -/
noncomputable def calculate_consistency_score (data : List ℝ) : ℝ :=
  if data.length < 2 ∨ listMeanR data = 0 then 100
  else max 0 (100 - pandas_std data / listMeanR data * 100)

/-! ## Fatigue index (`calculate_fatigue_index`,
`src/utils/calculations.py` 119–134) -/

/-- Embedding of `calculate_fatigue_index(current, avg, std)`:
"Normal" when the std is 0; otherwise classifies the z-score
`(current - avg) / std` with thresholds `> 2` (High Risk), `> 1`
(Moderate Risk), `< -1` (Under-loaded), else Normal. -/
def calculate_fatigue_index (current_load historical_avg historical_std : ℚ) :
    String :=
  if historical_std = 0 then "Normal"
  else
    let z_score := (current_load - historical_avg) / historical_std
    if 2 < z_score then "High Risk"
    else if 1 < z_score then "Moderate Risk"
    else if z_score < -1 then "Under-loaded"
    else "Normal"

/-! ## Trend coefficients (`calculate_trend_coefficient`,
`src/utils/calculations.py` 75–81)

`np.polyfit(x, y, 1)` is the degree-one least-squares fit; for equal-length
inputs whose x-values are not all equal it is the closed-form ordinary
least-squares solution, embedded here as `polyfit1`. -/

/-- Arithmetic mean of a list of rationals (`np.mean`). -/
def listMeanQ (l : List ℚ) : ℚ := l.sum / l.length

/-- Sum of squares `Σ xᵢ²`. -/
def sumSq (x : List ℚ) : ℚ := (x.map (fun a => a * a)).sum

/-- Sum of products `Σ xᵢ yᵢ` over the zipped lists. -/
def sumMul (x y : List ℚ) : ℚ := (List.zipWith (· * ·) x y).sum

/-- The normal-equation determinant `n·Σx² - (Σx)²` of the degree-one fit. -/
def olsDet (x : List ℚ) : ℚ := (x.length : ℚ) * sumSq x - x.sum * x.sum

/-- Embedding of `np.polyfit(x, y, 1)` in closed form: slope
`(n·Σxy - Σx·Σy) / (n·Σx² - (Σx)²)` and intercept `(Σy - slope·Σx) / n`. -/
def polyfit1 (x y : List ℚ) : ℚ × ℚ :=
  let n : ℚ := x.length
  let slope := (n * sumMul x y - x.sum * y.sum) / olsDet x
  (slope, (y.sum - slope * x.sum) / n)

/-- Embedding of `calculate_trend_coefficient(x, y)`: with fewer than 2 points in either
input, slope 0 and intercept `np.mean(y)` (0 when `y` is empty); otherwise
the degree-one least-squares coefficients. -/
def calculate_trend_coefficient (x y : List ℚ) : ℚ × ℚ :=
  if x.length < 2 ∨ y.length < 2 then
    (0, if 0 < y.length then listMeanQ y else 0)
  else polyfit1 x y

/-- Sum of squared residuals of the line `a·x + b` on the paired points of
`x` and `y`: what "ordinary least squares" minimizes. -/
def sse (x y : List ℚ) (a b : ℚ) : ℚ :=
  (List.zipWith (fun xi yi => (yi - (a * xi + b)) ^ 2) x y).sum

/-! ## Performance score (`calculate_performance_score`,
`src/components/metrics.py` 25–38)

The source iterates the global weight table `PERFORMANCE_WEIGHTS`
(`src/core/constants.py`); the spec quantifies over "any weight table", so
the weight table is a parameter here and the constant is defined below.
`all_data[metric].mean()` is pandas' NaN-skipping mean; an all-NaN (or
empty) column has mean NaN, which fails the `avg_value > 0` test — that is
`seriesMean = none` here. -/

/-- pandas column mean with `skipna=True`: `none` when no non-NaN value
exists (the float result would be NaN). -/
def seriesMean (col : List (Option ℚ)) : Option ℚ :=
  let vs := dropna col
  if vs.length = 0 then none else some (vs.sum / (vs.length : ℚ))

/-- The constant `PERFORMANCE_WEIGHTS` from `src/core/constants.py`. -/
def PERFORMANCE_WEIGHTS : List (String × ℚ) :=
  [("Total Distance", 0.2), ("Max Speed", 0.15), ("No of Sprints", 0.15),
   ("Sprint Distance", 0.15), ("High Speed Running", 0.15),
   ("Accelerations", 0.1), ("Decelerations", 0.1)]

/-- One iteration of the loop of `calculate_performance_score` on the
accumulator `(score, valid_metrics)`.  A metric contributes
`(player_value / avg) * w` to the score and `w` to `valid_metrics` exactly
when it is present in both the player's series and the population frame
and the population mean satisfies `avg > 0`. -/
def perfStep (player_data : List (String × ℚ)) (all_data : FrameO)
    (acc : ℚ × ℚ) (mw : String × ℚ) : ℚ × ℚ :=
  match alookup player_data mw.1, alookup all_data mw.1 with
  | some player_value, some col =>
    match seriesMean col with
    | some avg_value =>
        if 0 < avg_value then
          (acc.1 + player_value / avg_value * mw.2, acc.2 + mw.2)
        else acc
    | none => acc
  | _, _ => acc

/-- The accumulation loop of `calculate_performance_score`: the final pair
`(score, valid_metrics)`. -/
def perfFold (player_data : List (String × ℚ)) (all_data : FrameO)
    (weights : List (String × ℚ)) : ℚ × ℚ :=
  weights.foldl (perfStep player_data all_data) (0, 0)

/-- Embedding of `calculate_performance_score(player_data, all_data)`
(`src/components/metrics.py` 25–38): `score / valid_metrics * 100` when
`valid_metrics > 0`, else 0. -/
def calculate_performance_score (player_data : List (String × ℚ))
    (all_data : FrameO) (weights : List (String × ℚ)) : ℚ :=
  let r := perfFold player_data all_data weights
  if 0 < r.2 then r.1 / r.2 * 100 else 0

/-! ## Advanced load score (`calculate_load_score_advanced`,
`src/utils/calculations.py` 98–117)

All cells are assumed numeric (the loader coerces them); the min-max
normalization `(x - min) / (max - min) * 100` divides by zero when the
column is constant, and since the numerator is then also zero, every cell
of the normalized column is float NaN.  `PVal` records this. -/

/-- A dataframe of numeric columns together with its row count (pandas
`df.index`); in a well-formed frame every column has `nrows` entries. -/
structure Frame where
  nrows : ℕ
  cols : List (String × List ℚ)

/-- Min-max normalization of one column to the 0–100 scale:
`(x - min) / (max - min) * 100`.  When `max = min` the float division is
`0 / 0` at every cell, i.e. NaN. -/
def minmaxNormalize (col : List ℚ) : List PVal :=
  match col.min?, col.max? with
  | some mn, some mx =>
      if mx = mn then col.map (fun _ => PVal.nan)
      else col.map (fun x => PVal.num ((x - mn) / (mx - mn) * 100))
  | _, _ => []

/-- The weight table local to `calculate_load_score_advanced`. -/
def base_weights : List (String × ℚ) :=
  [("Total Distance", 0.25), ("Sprint Distance", 0.20),
   ("High Speed Running", 0.20), ("Accelerations", 0.15),
   ("Decelerations", 0.15), ("Max Speed", 0.05)]

/-- Embedding of `calculate_load_score_advanced(df)` (`src/utils/calculations.py`
98–117): starts from a zero series over the frame's index and adds
`normalized * weight` for every weighted metric present. -/
def calculate_load_score_advanced (df : Frame) : List PVal :=
  base_weights.foldl
    (fun load_score mw =>
      match alookup df.cols mw.1 with
      | some col =>
          List.zipWith (fun a x => a.add (x.smul mw.2)) load_score
            (minmaxNormalize col)
      | none => load_score)
    (List.replicate df.nrows (PVal.num 0))

/-! ## Recovery time (`calculate_recovery_time`,
`src/utils/calculations.py` 153–170)

`if age:` in Python is false for `None` and for 0; the age branch tests
`age > 30` BEFORE `elif age > 35`, so the 24-hour elif can never fire. -/

/-- Embedding of `calculate_recovery_time(load_score, age)`: base 24h, +24h when the
load score exceeds 80 (else +12h when it exceeds 60), then +12h when a
non-zero age above 30 is given (the `elif age > 35: +24` branch is shadowed
by the `age > 30` test). -/
def calculate_recovery_time (load_score : ℚ) (age : Option ℤ) : ℤ :=
  let base_recovery : ℤ :=
    24 + (if 80 < load_score then 24 else if 60 < load_score then 12 else 0)
  match age with
  | none => base_recovery
  | some a =>
      if a = 0 then base_recovery
      else if 30 < a then base_recovery + 12
      else if 35 < a then base_recovery + 24
      else base_recovery

/-! ## Data loading (`load_data`, `src/core/data_loader.py` 8–34)

The whole body is wrapped in `try/except`: a missing file and any parse
failure of the file as a whole both yield an empty frame (after a reported
error, a UI side effect outside this model).  A successfully parsed file is
a list of raw rows; header whitespace is stripped, rows without a player
name are dropped, the session type is trimmed and title-cased, and each of
the seven `METRICS` columns goes through `pd.to_numeric(·, errors='coerce')`
so that an unparseable cell becomes NaN rather than an error.  The
`timestamp` column the source may add is irrelevant to the claims and not
modelled. -/

/-- The constant `METRICS` from `src/core/constants.py` (`REQUIRED_COLUMNS[2:]`). -/
def METRICS : List String :=
  ["Total Distance", "Max Speed", "No of Sprints", "Sprint Distance",
   "Accelerations", "Decelerations", "High Speed Running"]

/-- A raw CSV cell: either parseable as a number (carrying its value) or
not (carrying its text). -/
inductive RawCell where
  | numCell (q : ℚ)
  | textCell (s : String)
  deriving DecidableEq, Repr

/-- Embedding of `pd.to_numeric(cell, errors='coerce')`: the value when the cell parses
as a number, NaN (`none`) otherwise. -/
def toNumericCoerce : RawCell → Option ℚ
  | RawCell.numCell q => some q
  | RawCell.textCell _ => none

/-- One raw CSV row: a possibly-missing player name, a session-type field,
and named cells (column names as written in the file, possibly padded with
whitespace). -/
structure RawRow where
  playerName : Option String
  sessionType : String
  cells : List (String × RawCell)

/-- What `load_data` receives for a path: no file at that path, a file that
cannot be parsed at all, or a parsed list of rows. -/
inductive LoadInput where
  | missingFile
  | corruptFile
  | parsed (rows : List RawRow)

/-- One processed Session Record row. -/
structure SessionRow where
  playerName : String
  sessionType : String
  metrics : List (String × Option ℚ)
  deriving DecidableEq, Repr

/-- Python `str.strip()` / pandas `.str.strip()` on a character list:
whitespace removed from both ends. -/
def stripChars (l : List Char) : List Char :=
  ((l.dropWhile (fun c => c.isWhitespace)).reverse.dropWhile
    (fun c => c.isWhitespace)).reverse

/-- Python `str.strip()` on a string. -/
def strip (s : String) : String := String.mk (stripChars s.toList)

/-- ASCII `str.title()` on a character list: an alphabetic character is
uppercased after a non-alphabetic position and lowercased after an
alphabetic one. -/
def titleAux : Bool → List Char → List Char
  | _, [] => []
  | prevAlpha, c :: cs =>
      (if c.isAlpha then (if prevAlpha then c.toLower else c.toUpper) else c)
        :: titleAux c.isAlpha cs

/-- The pipeline `.str.strip().str.title()` applied to the session-type field. -/
def normalizeSessionType (s : String) : String :=
  String.mk (titleAux false (strip s).toList)

/-- Embedding of `df.columns.str.strip()`: header names arrive trimmed. -/
def cellsTrim (r : RawRow) : List (String × RawCell) :=
  r.cells.map (fun p => (strip p.1, p.2))

/-- Processing of a single raw row: dropped (`none`) when the player name
is missing, otherwise the session type is normalized and every `METRICS`
column present in the row is numerically coerced. -/
def processRow (r : RawRow) : Option SessionRow :=
  r.playerName.map (fun nm =>
    { playerName := nm
      sessionType := normalizeSessionType r.sessionType
      metrics := METRICS.filterMap (fun m =>
        (alookup (cellsTrim r) m).map (fun c => (m, toNumericCoerce c))) })

/-- A sample raw CSV row used as the concrete witness input: padded header,
an unparseable "Total Distance" cell and a numeric "Max Speed" cell. -/
def sampleRawRow : RawRow :=
  { playerName := some "A"
    sessionType := "  first half "
    cells := [(" Total Distance ", RawCell.textCell "oops"),
              ("Max Speed", RawCell.numCell 31)] }

/-- The Session Record produced from `sampleRawRow`. -/
def sampleSessionRow : SessionRow :=
  { playerName := "A"
    sessionType := "First Half"
    metrics := [("Total Distance", none), ("Max Speed", some 31)] }

/-- Embedding of `load_data(path)` (`src/core/data_loader.py` 8–34): empty frame for a
missing or unparseable file, otherwise the processed rows. -/
def load_data : LoadInput → List SessionRow
  | LoadInput.missingFile => []
  | LoadInput.corruptFile => []
  | LoadInput.parsed rows => rows.filterMap processRow

/-! ## Theorems -/

/-- Helper: the value reported by `List.min?` is a lower bound for every
member of the list. -/
theorem min?_le_of_mem {l : List ℚ} {a b : ℚ} (h : l.min? = some a)
    (hb : b ∈ l) : a ≤ b := by
  haveI : Std.Antisymm (α := ℚ) (· ≤ ·) := ⟨@le_antisymm ℚ _⟩
  rw [List.min?_eq_some_iff (fun x => le_refl x) (fun x y => min_choice x y)
    (fun x y z => le_min_iff)] at h
  exact h.2 b hb

/-- C1: for a non-empty reference population, `calculate_percentile_values`
replaces each non-missing target value by
(count of reference values strictly less than it) / (reference count) · 100;
ties are not credited, so the minimum reference value scores 0; against the
population [10,20,30,40], value 50 scores 100 and value 25 scores 50. -/
theorem calculate_percentile_values_strict_rank :
    (∀ (m : String) (selCol fullCol : List (Option ℚ)),
        0 < (dropna fullCol).length →
        calculate_percentile_values [(m, selCol)] [(m, fullCol)] [m]
          = [(m, selCol.map (percentileCell (dropna fullCol)))])
    ∧ (∀ (all_values : List ℚ) (v : ℚ),
        percentileCell all_values (some v)
          = some (((all_values.filter (fun x => x < v)).length : ℚ) /
              (all_values.length : ℚ) * 100))
    ∧ (∀ (all_values : List ℚ) (mn : ℚ), all_values.min? = some mn →
        percentileCell all_values (some mn) = some 0)
    ∧ calculate_percentile_values [("M", [some 50, some 25])]
        [("M", [some 10, some 20, some 30, some 40])] ["M"]
        = [("M", [some 100, some 50])] := by
  refine ⟨?_, ?_, ?_, ?_⟩
  · intro m selCol fullCol h
    simp only [calculate_percentile_values, List.foldl_cons, List.foldl_nil, alookup,
      eq_self_iff_true, if_true]
    rw [if_pos h]
    simp [setCol]
  · intro all_values v
    rfl
  · intro all_values mn h
    have hfil : all_values.filter (fun x => decide (x < mn)) = [] := by
      rw [List.filter_eq_nil_iff]
      intro a ha
      simpa using not_lt.2 (min?_le_of_mem h ha)
    simp [percentileCell, hfil]
  · norm_num [calculate_percentile_values, percentileCell, dropna, setCol, alookup,
      List.filterMap_cons, List.filter_cons, List.filter_nil]

/-- Witness for C1 at concrete inputs. -/
theorem calculate_percentile_values_strict_rank_witness :
    calculate_percentile_values [("X", [some 3])] [("X", [some 1, some 2])] ["X"]
      = [("X", ([some 3] : List (Option ℚ)).map (percentileCell (dropna [some 1, some 2])))]
    ∧ percentileCell [10, 20, 30, 40] (some 10) = some 0 :=
  ⟨calculate_percentile_values_strict_rank.1 "X" [some 3] [some 1, some 2]
      (by decide),
   calculate_percentile_values_strict_rank.2.2.1 [10, 20, 30, 40] 10 (by decide)⟩

/-- C2 counterexample: with an all-missing reference population the
`calculations.py` percentile function leaves the non-missing target value 7
unchanged (it does not return 0), and the unguarded `metrics.py` variant
produces NaN (not 0) for that cell. -/
theorem percentile_empty_reference_counterexample :
    calculate_percentile_values [("M", [some 7])] [("M", [(none : Option ℚ)])] ["M"]
      = [("M", [some 7])]
    ∧ calculate_percentile_values [("M", [some 7])] [("M", [(none : Option ℚ)])] ["M"]
      ≠ [("M", [some 0])]
    ∧ metricsPercentileCell [] (some 7) = PVal.nan
    ∧ PVal.nan ≠ PVal.num 0 := by
  refine ⟨?_, ?_, by simp [metricsPercentileCell], by decide⟩
  · simp [calculate_percentile_values, alookup, dropna]
  · simp [calculate_percentile_values, alookup, dropna]

/-- C2 amended: when every reference value for a metric is missing, the
`calculations.py` `calculate_percentile_values` skips the metric and leaves
the target values unchanged (avoiding the division by zero); the
`metrics.py` variant performs the division and yields NaN for non-missing
targets; 0 arises only for missing target values. -/
theorem percentile_empty_reference_amended :
    (∀ (m : String) (selCol fullCol : List (Option ℚ)),
        (dropna fullCol).length = 0 →
        calculate_percentile_values [(m, selCol)] [(m, fullCol)] [m] = [(m, selCol)])
    ∧ (∀ v : ℚ, metricsPercentileCell [] (some v) = PVal.nan)
    ∧ (∀ all_values : List ℚ, metricsPercentileCell all_values none = PVal.num 0) := by
  refine ⟨?_, fun v => by simp [metricsPercentileCell], fun l => rfl⟩
  intro m selCol fullCol h
  simp only [calculate_percentile_values, List.foldl_cons, List.foldl_nil, alookup,
    eq_self_iff_true, if_true]
  rw [if_neg (by omega)]

/-- Witness for the C2 amended theorem at concrete inputs. -/
theorem percentile_empty_reference_amended_witness :
    calculate_percentile_values [("M", [some 7])] [("M", [(none : Option ℚ)])] ["M"]
      = [("M", [some 7])]
    ∧ metricsPercentileCell [] (some 7) = PVal.nan :=
  ⟨percentile_empty_reference_amended.1 "M" [some 7] [none] (by simp [dropna]),
   percentile_empty_reference_amended.2.1 7⟩

/-- C5: `calculate_growth_rate` returns 0 for fewer than 2 points, 100 when
the first value is 0 and the last is positive (0 when the first is 0 and
the last is not positive), and otherwise `((last - first) / first) * 100`;
in particular [0,5] ↦ 100, [10,5] ↦ -50, [7] ↦ 0. -/
theorem calculate_growth_rate_spec :
    (∀ data : List ℚ, data.length < 2 → calculate_growth_rate data = 0)
    ∧ (∀ data : List ℚ, 2 ≤ data.length → data.headD 0 = 0 →
        0 < data.getLastD 0 → calculate_growth_rate data = 100)
    ∧ (∀ data : List ℚ, 2 ≤ data.length → data.headD 0 = 0 →
        ¬ 0 < data.getLastD 0 → calculate_growth_rate data = 0)
    ∧ (∀ data : List ℚ, 2 ≤ data.length → data.headD 0 ≠ 0 →
        calculate_growth_rate data
          = (data.getLastD 0 - data.headD 0) / data.headD 0 * 100)
    ∧ calculate_growth_rate [0, 5] = 100
    ∧ calculate_growth_rate [10, 5] = -50
    ∧ calculate_growth_rate [7] = 0 := by
  refine ⟨?_, ?_, ?_, ?_, ?_, ?_, ?_⟩
  · intro data h
    simp only [calculate_growth_rate, if_pos h]
  · intro data h h0 hl
    simp only [calculate_growth_rate]
    rw [if_neg (by omega), if_pos h0, if_pos hl]
  · intro data h h0 hl
    simp only [calculate_growth_rate]
    rw [if_neg (by omega), if_pos h0, if_neg hl]
  · intro data h h0
    simp only [calculate_growth_rate]
    rw [if_neg (by omega), if_neg h0]
  · norm_num [calculate_growth_rate]
  · norm_num [calculate_growth_rate]
  · norm_num [calculate_growth_rate]

/-- Witness for C5 at concrete inputs. -/
theorem calculate_growth_rate_spec_witness :
    calculate_growth_rate [4] = 0
    ∧ calculate_growth_rate [4, 6] = (6 - 4) / 4 * 100 := by
  constructor
  · exact calculate_growth_rate_spec.1 [4] (by norm_num)
  · have := calculate_growth_rate_spec.2.2.2.1 [4, 6] (by norm_num) (by norm_num)
    simpa using this

/-- C7: `calculate_fatigue_index` always returns one of the four labels,
always returns "Normal" when the standard deviation is 0, and otherwise
classifies the z-score `(current - mean) / std` with thresholds at +2
(High Risk), +1 (Moderate Risk) and -1 (Under-loaded); in particular
(100, 50, 10) is High Risk and (50, 50, 0) is Normal. -/
theorem calculate_fatigue_index_spec :
    (∀ c m s : ℚ, calculate_fatigue_index c m s
        ∈ ["Normal", "Moderate Risk", "High Risk", "Under-loaded"])
    ∧ (∀ c m : ℚ, calculate_fatigue_index c m 0 = "Normal")
    ∧ (∀ c m s : ℚ, s ≠ 0 → 2 < (c - m) / s →
        calculate_fatigue_index c m s = "High Risk")
    ∧ (∀ c m s : ℚ, s ≠ 0 → 1 < (c - m) / s → (c - m) / s ≤ 2 →
        calculate_fatigue_index c m s = "Moderate Risk")
    ∧ (∀ c m s : ℚ, s ≠ 0 → (c - m) / s < -1 →
        calculate_fatigue_index c m s = "Under-loaded")
    ∧ (∀ c m s : ℚ, s ≠ 0 → -1 ≤ (c - m) / s → (c - m) / s ≤ 1 →
        calculate_fatigue_index c m s = "Normal")
    ∧ calculate_fatigue_index 100 50 10 = "High Risk"
    ∧ calculate_fatigue_index 50 50 0 = "Normal" := by
  refine ⟨?_, ?_, ?_, ?_, ?_, ?_, ?_, ?_⟩
  · intro c m s
    simp only [calculate_fatigue_index]
    split_ifs <;> simp
  · intro c m
    simp [calculate_fatigue_index]
  · intro c m s hs h
    simp only [calculate_fatigue_index]
    rw [if_neg hs, if_pos h]
  · intro c m s hs h1 h2
    simp only [calculate_fatigue_index]
    rw [if_neg hs, if_neg (by linarith), if_pos h1]
  · intro c m s hs h
    simp only [calculate_fatigue_index]
    rw [if_neg hs, if_neg (by linarith), if_neg (by linarith), if_pos h]
  · intro c m s hs h1 h2
    simp only [calculate_fatigue_index]
    rw [if_neg hs, if_neg (by linarith), if_neg (by linarith), if_neg (by linarith)]
  · norm_num [calculate_fatigue_index]
  · norm_num [calculate_fatigue_index]

/-- Witness for C7 at concrete inputs. -/
theorem calculate_fatigue_index_spec_witness :
    calculate_fatigue_index 80 50 10 = "High Risk"
    ∧ calculate_fatigue_index 30 50 10 = "Under-loaded" :=
  ⟨calculate_fatigue_index_spec.2.2.1 80 50 10 (by norm_num) (by norm_num),
   calculate_fatigue_index_spec.2.2.2.2.1 30 50 10 (by norm_num) (by norm_num)⟩

/-- C10: `calculate_recovery_time` always yields one of 24, 36, 48 or 60
hours, and for any age above 30 (including ages above 35, whose separate
`+24` branch is shadowed by the `age > 30` test coming first) the age
adjustment is exactly +12 hours over the no-age result. -/
theorem calculate_recovery_time_spec :
    (∀ (ls : ℚ) (age : Option ℤ),
        calculate_recovery_time ls age ∈ ([24, 36, 48, 60] : List ℤ))
    ∧ (∀ (ls : ℚ) (a : ℤ), 30 < a →
        calculate_recovery_time ls (some a)
          = calculate_recovery_time ls none + 12) := by
  constructor
  · intro ls age
    cases age with
    | none =>
        simp only [calculate_recovery_time]
        split_ifs <;> decide
    | some a =>
        simp only [calculate_recovery_time]
        split_ifs <;> first | decide | omega
  · intro ls a ha
    simp only [calculate_recovery_time]
    rw [if_neg (by omega), if_pos ha]

/-- Witness for C10 at concrete inputs. -/
theorem calculate_recovery_time_spec_witness :
    calculate_recovery_time 70 (some 31) = calculate_recovery_time 70 none + 12 :=
  calculate_recovery_time_spec.2 70 31 (by norm_num)

/-- C3 (code bug): `calculate_load_score_advanced` has no guard for a
metric that is constant across all rows.  On a frame whose "Total Distance"
column is the constant [5, 5] (with a non-constant "Sprint Distance"
column), min-max normalization divides 0 by 0 and every row's load score is
NaN — the spec requires a 0 contribution for the constant metric and no NaN
in any row's score. -/
theorem calculate_load_score_advanced_nan_on_constant_column :
    calculate_load_score_advanced
      ⟨2, [("Total Distance", [5, 5]), ("Sprint Distance", [1, 2])]⟩
      = [PVal.nan, PVal.nan] := by rfl

/-- C6: `calculate_consistency_score` is 100 minus the coefficient of
variation (std/mean · 100) floored at 0, and returns exactly 100 whenever
there are fewer than 2 samples or the mean is 0; in particular
[5,5,5] ↦ 100 and [] ↦ 100. -/
theorem calculate_consistency_score_spec :
    (∀ data : List ℝ, data.length < 2 ∨ listMeanR data = 0 →
        calculate_consistency_score data = 100)
    ∧ (∀ data : List ℝ, 2 ≤ data.length → listMeanR data ≠ 0 →
        calculate_consistency_score data
          = max 0 (100 - pandas_std data / listMeanR data * 100))
    ∧ calculate_consistency_score [5, 5, 5] = 100
    ∧ calculate_consistency_score [] = 100 := by
  have hm : listMeanR [(5 : ℝ), 5, 5] = 5 := by
    simp [listMeanR]
    norm_num
  have hstd : pandas_std [(5 : ℝ), 5, 5] = 0 := by
    simp [pandas_std, hm]
  refine ⟨?_, ?_, ?_, ?_⟩
  · intro data h
    simp only [calculate_consistency_score]
    rw [if_pos h]
  · intro data h hm0
    simp only [calculate_consistency_score]
    rw [if_neg (by push_neg; exact ⟨by omega, hm0⟩)]
  · simp only [calculate_consistency_score]
    rw [if_neg (by push_neg; refine ⟨by norm_num, by rw [hm]; norm_num⟩)]
    rw [hstd, hm]
    norm_num
  · simp only [calculate_consistency_score]
    rw [if_pos (Or.inl (by norm_num))]

/-- Witness for C6 at concrete inputs. -/
theorem calculate_consistency_score_spec_witness :
    calculate_consistency_score [(7 : ℝ)] = 100 :=
  calculate_consistency_score_spec.1 [7] (Or.inl (by norm_num))

/-- The condition «the player's value equals the population mean wherever
both are defined» for one weighted metric, as a decidable check: trivially true when
the metric is absent on either side or the population mean is undefined. -/
def ratioOne (player_data : List (String × ℚ)) (all_data : FrameO)
    (mw : String × ℚ) : Bool :=
  match alookup player_data mw.1, (alookup all_data mw.1).bind seriesMean with
  | some player_value, some avg_value => player_value == avg_value
  | _, _ => true

/-- A `perfStep` iteration preserves `score - valid_metrics` when the
player's value equals the population mean for that metric: the metric
either contributes `w` to both components or nothing to either. -/
theorem perfStep_diff (p : List (String × ℚ)) (a : FrameO) (mw : String × ℚ)
    (acc : ℚ × ℚ) (hr : ratioOne p a mw = true) :
    (perfStep p a acc mw).1 - (perfStep p a acc mw).2 = acc.1 - acc.2 := by
  cases hp : alookup p mw.1 with
  | none => simp [perfStep, hp]
  | some pv =>
    cases ha : alookup a mw.1 with
    | none => simp [perfStep, hp, ha]
    | some col =>
      cases hm : seriesMean col with
      | none => simp [perfStep, hp, ha, hm]
      | some avg =>
        simp only [ratioOne, hp, ha, Option.some_bind, hm, beq_iff_eq] at hr
        by_cases hpos : 0 < avg
        · simp only [perfStep, hp, ha, hm, if_pos hpos, hr,
            div_self (ne_of_gt hpos)]
          ring
        · simp [perfStep, hp, ha, hm, hpos]

/-- The whole loop preserves `score - valid_metrics` when every weighted
metric satisfies `ratioOne`. -/
theorem perfFoldAux_diff (p : List (String × ℚ)) (a : FrameO) :
    ∀ (ws : List (String × ℚ)) (acc : ℚ × ℚ),
      (∀ mw ∈ ws, ratioOne p a mw = true) →
      (ws.foldl (perfStep p a) acc).1 - (ws.foldl (perfStep p a) acc).2
        = acc.1 - acc.2
  | [], acc, _ => by simp
  | w :: ws, acc, h => by
      simp only [List.foldl_cons]
      rw [perfFoldAux_diff p a ws (perfStep p a acc w)
        (fun mw hmw => h mw (List.mem_cons_of_mem _ hmw))]
      exact perfStep_diff p a w acc (h w (List.mem_cons_self _ _))

/-- A weighted metric absent from the player's series or from the
population frame leaves the accumulator untouched. -/
theorem perfFoldAux_skip (p : List (String × ℚ)) (a : FrameO) :
    ∀ (ws : List (String × ℚ)) (acc : ℚ × ℚ),
      (∀ mw ∈ ws, alookup p mw.1 = none ∨ alookup a mw.1 = none) →
      ws.foldl (perfStep p a) acc = acc
  | [], _, _ => rfl
  | w :: ws, acc, h => by
      have hstep : perfStep p a acc w = acc := by
        rcases h w (List.mem_cons_self _ _) with hp | ha
        · simp [perfStep, hp]
        · cases hp : alookup p w.1 <;> simp [perfStep, hp, ha]
      simp only [List.foldl_cons, hstep]
      exact perfFoldAux_skip p a ws acc
        (fun mw hmw => h mw (List.mem_cons_of_mem _ hmw))

/-- C4 counterexample: a player whose single overlapping metric value (0)
exactly equals the population mean (0) scores 0, not 100, because the
`avg_value > 0` guard skips zero-mean metrics and the used weight stays 0. -/
theorem calculate_performance_score_counterexample :
    seriesMean [some (0 : ℚ), some 0] = some 0
    ∧ alookup [("Total Distance", (0 : ℚ))] "Total Distance" = some 0
    ∧ calculate_performance_score [("Total Distance", 0)]
        [("Total Distance", [some 0, some 0])] PERFORMANCE_WEIGHTS = 0
    ∧ (0 : ℚ) ≠ 100 := by
  refine ⟨by simp [seriesMean, dropna], by norm_num [alookup], ?_, by norm_num⟩
  simp only [calculate_performance_score, perfFold, PERFORMANCE_WEIGHTS,
    List.foldl_cons, List.foldl_nil, perfStep, alookup, String.reduceEq,
    reduceIte, seriesMean, dropna, List.filterMap_cons, List.filterMap_nil, id,
    List.length_cons, List.length_nil, List.sum_cons, List.sum_nil]
  norm_num

/-- C4 amended: for every player whose metric values equal the population
means wherever both are defined, `calculate_performance_score` returns
exactly 100 PROVIDED the total weight actually used is positive (each used
metric contributes `(value / mean) · weight = weight`, normalized by the
used weight and scaled by 100); metrics whose population mean is not
positive are skipped, so when the used weight is not positive — in
particular when no metric overlaps between the player's data and the
weight table — the score is 0. -/
theorem calculate_performance_score_amended :
    (∀ (player_data : List (String × ℚ)) (all_data : FrameO)
        (weights : List (String × ℚ)),
        (∀ mw ∈ weights, ratioOne player_data all_data mw = true) →
        0 < (perfFold player_data all_data weights).2 →
        calculate_performance_score player_data all_data weights = 100)
    ∧ (∀ (player_data : List (String × ℚ)) (all_data : FrameO)
        (weights : List (String × ℚ)),
        (∀ mw ∈ weights,
          alookup player_data mw.1 = none ∨ alookup all_data mw.1 = none) →
        calculate_performance_score player_data all_data weights = 0) := by
  constructor
  · intro p a ws h1 h2
    have hd := perfFoldAux_diff p a ws (0, 0) h1
    simp only [calculate_performance_score]
    rw [if_pos h2]
    have : (perfFold p a ws).1 = (perfFold p a ws).2 := by
      have := hd
      simp only [perfFold] at h2 ⊢
      linarith [this]
    rw [this, div_self (ne_of_gt h2)]
    norm_num
  · intro p a ws h
    simp only [calculate_performance_score, perfFold, perfFoldAux_skip p a ws (0, 0) h]
    norm_num

/-- Witness for the C4 amended theorem at concrete inputs: a player whose
only shared metric value equals the (positive) population mean scores 100;
with no overlap at all the score is 0. -/
theorem calculate_performance_score_amended_witness :
    calculate_performance_score [("Total Distance", 2)]
      [("Total Distance", [some 1, some 3])] PERFORMANCE_WEIGHTS = 100
    ∧ calculate_performance_score [] [] PERFORMANCE_WEIGHTS = 0 :=
  ⟨calculate_performance_score_amended.1 _ _ _
      (by
        intro mw hmw
        fin_cases hmw <;> simp [ratioOne, alookup, seriesMean, dropna]
        norm_num)
      (by
        simp only [perfFold, PERFORMANCE_WEIGHTS, List.foldl_cons, List.foldl_nil,
          perfStep, alookup, String.reduceEq, reduceIte, seriesMean, dropna,
          List.filterMap_cons, List.filterMap_nil, id, List.length_cons,
          List.length_nil, List.sum_cons, List.sum_nil]
        norm_num),
   calculate_performance_score_amended.2 [] [] PERFORMANCE_WEIGHTS
      (fun mw _ => Or.inl rfl)⟩

/-- Residual sum `Σ (yᵢ - (a·xᵢ + b))` of the line `a·x + b`. -/
def sres (x y : List ℚ) (a b : ℚ) : ℚ :=
  (List.zipWith (fun xi yi => yi - (a * xi + b)) x y).sum

/-- x-weighted residual sum `Σ xᵢ·(yᵢ - (a·xᵢ + b))`. -/
def sxres (x y : List ℚ) (a b : ℚ) : ℚ :=
  (List.zipWith (fun xi yi => xi * (yi - (a * xi + b))) x y).sum

/-- The quadratic excess `Σ (u·xᵢ + v)²` appearing in `sse_shift`. -/
def qsum (x : List ℚ) (u v : ℚ) : ℚ :=
  (x.map (fun xi => (u * xi + v) ^ 2)).sum

/-- Closed form of the residual sum. -/
theorem sres_eq (a b : ℚ) : ∀ (x y : List ℚ), x.length = y.length →
    sres x y a b = y.sum - a * x.sum - (x.length : ℚ) * b
  | [], [], _ => by simp [sres]
  | [], y₀ :: ys, h => by simp at h
  | x₀ :: xs, [], h => by simp at h
  | x₀ :: xs, y₀ :: ys, h => by
      have h' : xs.length = ys.length := by simpa using h
      simp only [sres, List.zipWith_cons_cons, List.sum_cons, List.length_cons,
        List.sum_cons]
      have ih := sres_eq a b xs ys h'
      simp only [sres] at ih
      rw [ih]
      push_cast
      ring

/-- Closed form of the x-weighted residual sum. -/
theorem sxres_eq (a b : ℚ) : ∀ (x y : List ℚ), x.length = y.length →
    sxres x y a b = sumMul x y - a * sumSq x - b * x.sum
  | [], [], _ => by simp [sxres, sumMul, sumSq]
  | [], y₀ :: ys, h => by simp at h
  | x₀ :: xs, [], h => by simp at h
  | x₀ :: xs, y₀ :: ys, h => by
      have h' : xs.length = ys.length := by simpa using h
      have ih := sxres_eq a b xs ys h'
      simp only [sxres, sumMul, sumSq, List.zipWith_cons_cons, List.sum_cons,
        List.map_cons] at ih ⊢
      rw [ih]
      ring

/-- Perturbing the line by `(u, v)` changes the sum of squared residuals by
the two cross terms and a non-negative quadratic. -/
theorem sse_shift : ∀ (x y : List ℚ), x.length = y.length → ∀ (a b u v : ℚ),
    sse x y (a + u) (b + v)
      = sse x y a b - 2 * u * sxres x y a b - 2 * v * sres x y a b + qsum x u v
  | [], [], _, a, b, u, v => by simp [sse, sxres, sres, qsum]
  | [], y₀ :: ys, h, _, _, _, _ => by simp at h
  | x₀ :: xs, [], h, _, _, _, _ => by simp at h
  | x₀ :: xs, y₀ :: ys, h, a, b, u, v => by
      have h' : xs.length = ys.length := by simpa using h
      have ih := sse_shift xs ys h' a b u v
      simp only [sse, sxres, sres, qsum, List.zipWith_cons_cons, List.sum_cons,
        List.map_cons] at ih ⊢
      rw [ih]
      ring

/-- The quadratic excess is a sum of squares. -/
theorem qsum_nonneg (x : List ℚ) (u v : ℚ) : 0 ≤ qsum x u v := by
  apply List.sum_nonneg
  intro q hq
  simp only [qsum, List.mem_map] at hq
  obtain ⟨xi, -, rfl⟩ := hq
  positivity

/-- The closed-form `polyfit1` coefficients satisfy both normal equations
of the least-squares problem. -/
theorem polyfit1_normal_eqs (x y : List ℚ) (hlen : x.length = y.length)
    (hn : (x.length : ℚ) ≠ 0) (hd : olsDet x ≠ 0) :
    sres x y (polyfit1 x y).1 (polyfit1 x y).2 = 0
    ∧ sxres x y (polyfit1 x y).1 (polyfit1 x y).2 = 0 := by
  have hi : (polyfit1 x y).2
      = (y.sum - (polyfit1 x y).1 * x.sum) / (x.length : ℚ) := rfl
  have hs : (polyfit1 x y).1
      = ((x.length : ℚ) * sumMul x y - x.sum * y.sum) / olsDet x := rfl
  constructor
  · rw [sres_eq _ _ x y hlen, hi]
    field_simp
  · rw [sxres_eq _ _ x y hlen, hi, hs]
    simp only [olsDet] at hd ⊢
    field_simp
    ring

/-- C8: `calculate_trend_coefficient` returns slope 0 and intercept
`mean(y)` (0 when `y` is empty) whenever either input has fewer than 2
points, and with 2 or more equal-length points (x-values not all equal, so
the normal equations are non-degenerate) it returns the ordinary
least-squares line: its sum of squared residuals is minimal among all
lines. -/
theorem calculate_trend_coefficient_spec :
    (∀ x y : List ℚ, (x.length < 2 ∨ y.length < 2) →
        calculate_trend_coefficient x y
          = (0, if 0 < y.length then listMeanQ y else 0))
    ∧ (∀ x y : List ℚ, 2 ≤ x.length → 2 ≤ y.length → x.length = y.length →
        olsDet x ≠ 0 → ∀ a b : ℚ,
        sse x y (calculate_trend_coefficient x y).1
          (calculate_trend_coefficient x y).2 ≤ sse x y a b) := by
  constructor
  · intro x y h
    simp only [calculate_trend_coefficient]
    rw [if_pos h]
  · intro x y hx hy hlen hd a b
    have hn : (x.length : ℚ) ≠ 0 := Nat.cast_ne_zero.mpr (by omega)
    have hne := polyfit1_normal_eqs x y hlen hn hd
    have hctc : calculate_trend_coefficient x y = polyfit1 x y := by
      simp only [calculate_trend_coefficient]
      rw [if_neg (by omega)]
    rw [hctc]
    have key := sse_shift x y hlen (polyfit1 x y).1 (polyfit1 x y).2
      (a - (polyfit1 x y).1) (b - (polyfit1 x y).2)
    rw [show (polyfit1 x y).1 + (a - (polyfit1 x y).1) = a from by ring,
      show (polyfit1 x y).2 + (b - (polyfit1 x y).2) = b from by ring,
      hne.1, hne.2] at key
    have hq := qsum_nonneg x (a - (polyfit1 x y).1) (b - (polyfit1 x y).2)
    linarith [key, hq]

/-- Witness for C8 at concrete inputs. -/
theorem calculate_trend_coefficient_spec_witness :
    calculate_trend_coefficient [5] [1, 2]
      = (0, if 0 < ([1, 2] : List ℚ).length then listMeanQ [1, 2] else 0)
    ∧ sse [0, 1] [0, 1] (calculate_trend_coefficient [0, 1] [0, 1]).1
        (calculate_trend_coefficient [0, 1] [0, 1]).2 ≤ sse [0, 1] [0, 1] 3 7 :=
  ⟨calculate_trend_coefficient_spec.1 [5] [1, 2] (by norm_num),
   calculate_trend_coefficient_spec.2 [0, 1] [0, 1] (by norm_num) (by norm_num)
     (by norm_num) (by norm_num [olsDet, sumSq]) 3 7⟩

/-- Looking up a key outside `l` in the assoc list built over keys of `l`
gives nothing. -/
theorem alookup_filterMap_keys_none {β γ : Type} (f : String → Option β)
    (g : β → γ) :
    ∀ (l : List String) (m : String), m ∉ l →
      alookup (l.filterMap (fun k => (f k).map (fun c => (k, g c)))) m = none
  | [], _, _ => rfl
  | k :: t, m, h => by
      have hm : m ≠ k := fun e => h (e ▸ List.mem_cons_self k t)
      have ht : m ∉ t := fun e => h (List.mem_cons_of_mem _ e)
      cases hf : f k with
      | none =>
          simp only [List.filterMap_cons, hf, Option.map_none']
          exact alookup_filterMap_keys_none f g t m ht
      | some c =>
          simp only [List.filterMap_cons, hf, Option.map_some']
          simp only [alookup, if_neg hm]
          exact alookup_filterMap_keys_none f g t m ht

/-- Looking up `m ∈ l` (keys without duplicates) in the assoc list built
over `l` from a partial function `f` recovers `(f m).map g`. -/
theorem alookup_filterMap_keys {β γ : Type} (f : String → Option β)
    (g : β → γ) :
    ∀ (l : List String), l.Nodup → ∀ m ∈ l,
      alookup (l.filterMap (fun k => (f k).map (fun c => (k, g c)))) m
        = (f m).map g
  | [], _, m, hm => by simp at hm
  | k :: t, hnd, m, hm => by
      have hk : k ∉ t := (List.nodup_cons.mp hnd).1
      have hnd' : t.Nodup := (List.nodup_cons.mp hnd).2
      rcases List.mem_cons.mp hm with rfl | hmt
      · cases hf : f m with
        | none =>
            simp only [List.filterMap_cons, hf, Option.map_none']
            exact alookup_filterMap_keys_none f g t m hk
        | some c =>
            simp only [List.filterMap_cons, hf, Option.map_some']
            simp [alookup]
      · have hm' : m ≠ k := fun e => hk (e ▸ hmt)
        cases hf : f k with
        | none =>
            simp only [List.filterMap_cons, hf, Option.map_none']
            exact alookup_filterMap_keys f g t hnd' m hmt
        | some c =>
            simp only [List.filterMap_cons, hf, Option.map_some']
            simp only [alookup, if_neg hm']
            exact alookup_filterMap_keys f g t hnd' m hmt

/-- C9: `load_data` is a total function into tables (totality in Lean is
the embedding of "never raises past its boundary"): a missing file and an
unparseable file both give the empty table; every raw row with a player
name yields an output row whose seven metric columns go through
`pd.to_numeric(errors='coerce')`, so an unparseable cell becomes a missing
value (`none`) while parseable cells keep their value — per-cell parse
failures never fail the load. -/
theorem load_data_spec :
    load_data LoadInput.missingFile = []
    ∧ load_data LoadInput.corruptFile = []
    ∧ (∀ (rows : List RawRow) (r : RawRow), r ∈ rows → ∀ out,
        processRow r = some out → out ∈ load_data (LoadInput.parsed rows))
    ∧ (∀ (r : RawRow) (out : SessionRow), processRow r = some out →
        ∀ m ∈ METRICS,
          alookup out.metrics m = (alookup (cellsTrim r) m).map toNumericCoerce)
    ∧ (∀ rows : List RawRow,
        (∀ r ∈ rows, r.playerName = none) → load_data (LoadInput.parsed rows) = [])
    ∧ (∀ s : String, toNumericCoerce (RawCell.textCell s) = none)
    ∧ (∀ q : ℚ, toNumericCoerce (RawCell.numCell q) = some q) := by
  refine ⟨rfl, rfl, ?_, ?_, ?_, fun s => rfl, fun q => rfl⟩
  · intro rows r hr out hout
    simp only [load_data, List.mem_filterMap]
    exact ⟨r, hr, hout⟩
  · intro r out hout m hm
    obtain ⟨nm, hnm⟩ : ∃ nm, r.playerName = some nm := by
      cases hpn : r.playerName with
      | none => simp [processRow, hpn] at hout
      | some nm => exact ⟨nm, rfl⟩
    simp only [processRow, hnm, Option.map_some', Option.some_inj] at hout
    rw [← hout]
    exact alookup_filterMap_keys (alookup (cellsTrim r)) toNumericCoerce
      METRICS (by decide) m hm
  · intro rows h
    simp only [load_data, List.filterMap_eq_nil_iff]
    intro r hr
    simp [processRow, h r hr]

/-- The row `sampleRawRow` processes to `sampleSessionRow`. -/
theorem processRow_sample : processRow sampleRawRow = some sampleSessionRow := by
  decide

/-- Witness for C9 at the concrete sample row. -/
theorem load_data_spec_witness :
    sampleSessionRow ∈ load_data (LoadInput.parsed [sampleRawRow])
    ∧ alookup sampleSessionRow.metrics "Total Distance"
        = (alookup (cellsTrim sampleRawRow) "Total Distance").map toNumericCoerce :=
  have hpr : processRow sampleRawRow = some sampleSessionRow := processRow_sample
  ⟨load_data_spec.2.2.1 [sampleRawRow] sampleRawRow (List.mem_cons_self _ _)
      sampleSessionRow hpr,
   load_data_spec.2.2.2.1 sampleRawRow sampleSessionRow hpr
      "Total Distance" (by decide)⟩
